import Mathlib

/-!
Verification of the Soundraw Raycast extension core: the playback
coordinator (`lib/audio.ts`), the API client (`lib/soundraw.ts`), the
persisted-configuration store (`lib/storage.ts`) and the file cache
(`lib/file.ts`, modelled from the specification where its source is
absent).  Pure data is embedded directly; effectful operations are
embedded as state-passing functions over an explicit environment of
I/O oracles, producing an event trace that records every external call
(automation-bridge invocations, file deletions, fetches, listener
notifications).
-/

namespace Soundraw

/-- Observable external events of a playback operation, in the order the
code performs them: automation-bridge calls, temp-file unlink attempts,
fetch-or-download of the backing file, state updates and listener
notifications. -/
inductive Ev where
  | bridgeStop : Ev
  | unlinkTemp : String → Ev
  | notify : Option String → Ev
  | fetchFile : String → Ev
  | setPlaying : String → String → Ev
  | bridgePlay : String → Ev
  deriving DecidableEq, Repr

/-- State of the `PlaybackStateManager` singleton: the currently playing
sample id, the backing temp-file path, and the set of subscribed
listeners (represented by listener ids). -/
structure MgrState where
  sampleId : Option String
  tempPath : Option String
  listeners : List Nat
  deriving DecidableEq, Repr

/-- Initial manager state: nothing playing, no temp file, no listeners. -/
def initState : MgrState := { sampleId := none, tempPath := none, listeners := [] }

/-- Environment of I/O oracles: the `getOrDownloadFile` call made by
`playAudio` (returning a file path or failing), the play and stop
AppleScript invocations (which may fail), and `fs.existsSync` for the
temp file. -/
structure Env where
  download : String → String → Except String String
  playBridge : String → Except String Unit
  stopBridge : Except String Unit
  fsHas : String → Bool

/-- `PlaybackStateManager.cleanup`: if a temp path is recorded, attempt
to delete the file (the unlink happens only when the file exists, and
deletion errors are swallowed), clear `tempPath`, clear `sampleId`, and
notify listeners. -/
def cleanup (env : Env) (s : MgrState) : MgrState × List Ev :=
  let unlinkEvs :=
    match s.tempPath with
    | some p => if env.fsHas p then [Ev.unlinkTemp p] else []
    | none => []
  ({ s with sampleId := none, tempPath := none },
   unlinkEvs ++ [Ev.notify none])

/-- `stopAudio`: when nothing is playing, return immediately without
touching the external player; otherwise send the stop script to the
player (success or failure of the script is swallowed) and, in the
`finally` block, run `cleanup`. -/
def stopAudio (env : Env) (s : MgrState) : MgrState × List Ev :=
  match s.sampleId with
  | none => (s, [])
  | some _ =>
      let c := cleanup env s
      match env.stopBridge with
      | Except.ok _ => (c.1, Ev.bridgeStop :: c.2)
      | Except.error _ => (c.1, Ev.bridgeStop :: c.2)

/-- The body of the operation `playAudio` enqueues, after its initial
`stopAudio`: download the file, record the playing state
(`setPlayingState`, which notifies listeners), then invoke the play
script; on any failure run `cleanup` and rethrow the original error. -/
def startPhase (url sid name : String) (env : Env) (s : MgrState) :
    MgrState × List Ev × Option String :=
  match env.download url name with
  | Except.error e =>
      let c := cleanup env s
      (c.1, Ev.fetchFile url :: c.2, some e)
  | Except.ok path =>
      let s2 := { s with sampleId := some sid, tempPath := some path }
      let evs := [Ev.fetchFile url, Ev.setPlaying sid path, Ev.notify (some sid)]
      match env.playBridge path with
      | Except.ok _ => (s2, evs ++ [Ev.bridgePlay path], none)
      | Except.error e =>
          let c := cleanup env s2
          (c.1, evs ++ [Ev.bridgePlay path] ++ c.2, some e)

/-- The whole operation `playAudio` appends to the queue: stop whatever
is currently playing, then run the start phase. -/
def playOp (url sid name : String) (env : Env) (s : MgrState) :
    MgrState × List Ev × Option String :=
  let st := stopAudio env s
  let r := startPhase url sid name env st.1
  (r.1, st.2 ++ r.2.1, r.2.2)

/-- A queued playback operation: a state transformer that also reports
its event trace and the error it raised, if any. -/
def Op : Type := Env → MgrState → MgrState × List Ev × Option String

/-- The promise queue of `enqueuePlayback`: operations run strictly one
after another in arrival order, and the `catch` attached to each link of
the chain swallows its error so the next operation always runs. -/
def runQueue (env : Env) : MgrState → List Op → MgrState × List (List Ev × Option String)
  | s, [] => (s, [])
  | s, op :: rest =>
      let r := op env s
      let q := runQueue env r.1 rest
      (q.1, (r.2.1, r.2.2) :: q.2)

/-- Flattened event trace of a queue run. -/
def queueTrace (results : List (List Ev × Option String)) : List Ev :=
  (results.map Prod.fst).flatten

/-- Caller-visible outcome of `await playAudio(...)`: `enqueuePlayback`
returns the operation promise with a `catch` handler that maps any error
to `undefined`, so the caller observes normal resolution in both cases. -/
def callerResult (r : Option String) : Except String Unit :=
  match r with
  | some _ => Except.ok ()
  | none => Except.ok ()

/-- `playAudio`: enqueue the play operation; the returned promise
resolves with the new state and the caller-visible outcome. -/
def playAudio (url sid name : String) (env : Env) (s : MgrState) :
    MgrState × List Ev × Except String Unit :=
  let r := playOp url sid name env s
  (r.1, r.2.1, callerResult r.2.2)

/-- `PlaybackStateManager.destroy` (the body of `cleanupPlayback`):
run `cleanup`, then clear the listener set. -/
def destroy (env : Env) (s : MgrState) : MgrState × List Ev :=
  let c := cleanup env s
  ({ c.1 with listeners := [] }, c.2)

/-- `subscribe`: add a listener and immediately notify it with the
current sample id. -/
def subscribe (l : Nat) (s : MgrState) : MgrState × List Ev :=
  ({ s with listeners := l :: s.listeners }, [Ev.notify s.sampleId])

/-- States reachable from the initial manager state through the public
playback operations. -/
inductive Reachable (env : Env) : MgrState → Prop where
  | init : Reachable env initState
  | play (u i n : String) {s : MgrState} :
      Reachable env s → Reachable env (playOp u i n env s).1
  | stop {s : MgrState} : Reachable env s → Reachable env (stopAudio env s).1
  | clean {s : MgrState} : Reachable env s → Reachable env (cleanup env s).1
  | dest {s : MgrState} : Reachable env s → Reachable env (destroy env s).1
  | sub (l : Nat) {s : MgrState} : Reachable env s → Reachable env (subscribe l s).1

/-- The temp-path/sample-id invariant: both fields are set or both are
clear. -/
def inv (s : MgrState) : Prop := s.sampleId.isSome ↔ s.tempPath.isSome

/-- A playback request as issued by the UI layer. -/
inductive Request where
  | play : String → String → String → Request
  | stop : Request

/-- What each request contributes to the serialization queue, per the
source: `playAudio` wraps its whole operation in
`manager.enqueuePlayback`, while `stopAudio` executes directly and
never calls `enqueuePlayback`. -/
def requestQueueOps : Request → List Op
  | Request.play u i n => [playOp u i n]
  | Request.stop => []

/-- Environment in which every external call succeeds. -/
def env0 : Env :=
  { download := fun _ n => Except.ok ("/tmp/" ++ n)
    playBridge := fun _ => Except.ok ()
    stopBridge := Except.ok ()
    fsHas := fun _ => true }

/-- Environment in which the file download fails. -/
def envFail : Env :=
  { download := fun _ _ => Except.error "boom"
    playBridge := fun _ => Except.ok ()
    stopBridge := Except.ok ()
    fsHas := fun _ => true }

/-- A state in which sample A is playing with a live temp file and two
subscribers. -/
def playingState : MgrState :=
  { sampleId := some "A", tempPath := some "/tmp/a", listeners := [0, 1] }

/-- Persisted credential record (`SoundrawConfig` in `lib/types.ts`). -/
structure SoundrawConfig where
  token : String
  apiBaseUrl : String
  createdAt : String
  deriving DecidableEq, Repr

/-- The single persisted record (`StoredState`). -/
structure StoredState where
  soundrawConfig : Option SoundrawConfig := none
  deriving DecidableEq, Repr

/-- JavaScript falsiness of an optional string: `undefined` or the
empty string. -/
def jsFalsy : Option String → Bool
  | none => true
  | some s => s.isEmpty

/-- `readState`: a missing or empty raw value yields the empty state; a
raw value the JSON parser rejects yields the empty state (the
`try`/`catch`); otherwise only the `soundrawConfig` field of the parsed
value is retained.  `JSON.parse` is the platform's and enters as the
oracle `parseJson`, returning `none` exactly when it throws. -/
def readState (parseJson : String → Option StoredState) (raw : Option String) :
    StoredState :=
  match raw with
  | none => {}
  | some s =>
      if s.isEmpty then {}
      else
        match parseJson s with
        | none => {}
        | some parsed => { soundrawConfig := parsed.soundrawConfig }

/-- `getSoundrawConfig`: the stored config, if any. -/
def getSoundrawConfig (parseJson : String → Option StoredState)
    (raw : Option String) : Option SoundrawConfig :=
  (readState parseJson raw).soundrawConfig

/-- `getSoundrawToken`: `config?.token`. -/
def getSoundrawToken (parseJson : String → Option StoredState)
    (raw : Option String) : Option String :=
  (getSoundrawConfig parseJson raw).map (fun c => c.token)

/-- `getSoundrawApiBaseUrl`: `config?.apiBaseUrl`. -/
def getSoundrawApiBaseUrl (parseJson : String → Option StoredState)
    (raw : Option String) : Option String :=
  (getSoundrawConfig parseJson raw).map (fun c => c.apiBaseUrl)

/-- An HTTP response as `makeRequest` consumes it. -/
structure HttpResponse where
  ok : Bool
  status : Nat
  statusText : String
  body : String

/-- The network boundary of the API client: `fetch` (an `error` is a
transport failure) and `response.json()` (`none` means the body failed
to parse, which the code folds into its network-error branch). -/
structure ApiEnv where
  fetch : String → Except String HttpResponse
  parseBody : String → Option String

/-- The single error class `SoundrawAPIError`: a message and an
optional HTTP status (configuration and network failures carry none). -/
structure SoundrawAPIError where
  message : String
  status : Option Nat
  deriving DecidableEq, Repr

/-- The message thrown when no token is stored. -/
def noTokenMsg : String := "No API token found. Please set up your token first."

/-- The message thrown when no API base URL is stored. -/
def noBaseUrlMsg : String :=
  "No API base URL found. Please set up your configuration first."

/-- `makeRequest`: read the token and base URL; a falsy token or base
URL throws a configuration `SoundrawAPIError` before any fetch; then
fetch, mapping a non-ok status to an API error carrying the status and
a transport or body-parse failure to a network error.  The second
component counts the network requests made. -/
def makeRequest (token apiBaseUrl : Option String) (env : ApiEnv)
    (endpoint : String) : Except SoundrawAPIError String × Nat :=
  if jsFalsy token then
    (Except.error { message := noTokenMsg, status := none }, 0)
  else if jsFalsy apiBaseUrl then
    (Except.error { message := noBaseUrlMsg, status := none }, 0)
  else
    match env.fetch (apiBaseUrl.getD "" ++ endpoint) with
    | Except.error e =>
        (Except.error { message := "Network error: " ++ e, status := none }, 1)
    | Except.ok resp =>
        if resp.ok = false then
          (Except.error
            { message := "API request failed: " ++ toString resp.status ++ " " ++
                resp.statusText,
              status := some resp.status }, 1)
        else
          match env.parseBody resp.body with
          | none =>
              (Except.error
                { message := "Network error: Unknown error", status := none }, 1)
          | some j => (Except.ok j, 1)

/-- The `/beats` endpoint with its query string, as `searchSamples`
builds it (`URLSearchParams` percent-encodes the brackets of the
`genres` array parameter; a zero page or limit is falsy and skipped). -/
def searchEndpoint (genres : List String) (page limit : Option Nat) : String :=
  let pageParams :=
    match page with
    | some p => if p = 0 then [] else ["page=" ++ toString p]
    | none => []
  let limitParams :=
    match limit with
    | some l => if l = 0 then [] else ["limit=" ++ toString l]
    | none => []
  let params := genres.map (fun g => "genres%5B%5D=" ++ g) ++ pageParams ++ limitParams
  let q := String.intercalate "&" params
  if q.isEmpty then "/beats" else "/beats?" ++ q

/-- `searchSamples`: request the `/beats` endpoint. -/
def searchSamples (token apiBaseUrl : Option String) (env : ApiEnv)
    (genres : List String) (page limit : Option Nat) :
    Except SoundrawAPIError String × Nat :=
  makeRequest token apiBaseUrl env (searchEndpoint genres page limit)

/-- `getAvailableGenres`: request the `/tags` endpoint. -/
def getAvailableGenres (token apiBaseUrl : Option String) (env : ApiEnv) :
    Except SoundrawAPIError String × Nat :=
  makeRequest token apiBaseUrl env "/tags"

/-- Whether a request outcome is a configuration failure: an error with
no HTTP status whose message is one of the two pre-fetch messages. -/
def isConfigFailure : Except SoundrawAPIError String → Bool
  | Except.error e =>
      (e.message = noTokenMsg || e.message = noBaseUrlMsg) && e.status = none
  | Except.ok _ => false

/-- An API environment whose fetch always succeeds. -/
def apiEnv0 : ApiEnv :=
  { fetch := fun _ =>
      Except.ok { ok := true, status := 200, statusText := "OK", body := "x" }
    parseBody := fun s => some s }

/-- Characters the sanitized filename keeps: alphanumerics, space, dash
and underscore. -/
def isSafeChar (c : Char) : Bool := c.isAlphanum || c = ' ' || c = '-' || c = '_'

/-- The maximal runs of a character list between occurrences of a
separator character. -/
def splitOnChar (c : Char) : List Char → List (List Char)
  | [] => [[]]
  | x :: xs =>
      match splitOnChar c xs, decide (x = c) with
      | r, true => [] :: r
      | [], false => [[x]]
      | y :: ys, false => (x :: y) :: ys

/-- Runs joined back with a separator between them. -/
def joinWith (sep : List Char) : List (List Char) → List Char
  | [] => []
  | [x] => x
  | x :: y :: ys => x ++ sep ++ joinWith sep (y :: ys)

/-- Modelled from the spec: `lib/file.ts` is not among the provided
sources; per the spec the resolver produces a filesystem-safe name by
stripping characters outside a safe alphanumeric/space/dash/underscore
set and collapsing whitespace. -/
def sanitizeName (name : String) : String :=
  String.mk (joinWith [' ']
    ((splitOnChar ' ' (name.toList.filter isSafeChar)).filter
      (fun t => t.isEmpty = false)))

/-- The lowercase hex digit for a value below sixteen. -/
def hexDigitChar (n : Nat) : Char :=
  if n < 10 then Char.ofNat (48 + n) else Char.ofNat (87 + n)

/-- Big-endian fixed-width hex digits of a number. -/
def toHexAux : Nat → Nat → List Char
  | 0, _ => []
  | k + 1, n => toHexAux k (n / 16) ++ [hexDigitChar (n % 16)]

/-- Eight-hex-character rendering of a 32-bit value. -/
def toHex8 (n : Nat) : String := String.mk (toHexAux 8 n)

/-- Modelled from the spec: the short content hash of the URL used as
the cache-key suffix — a 32-bit rolling hash over the characters of the
URL (the concrete hash of `lib/file.ts` is not among the provided
sources; any fixed-width hash realizes the spec's "short (e.g., 8–12
hex character) hash of the URL"). -/
def urlHash (url : String) : Nat :=
  url.toList.foldl (fun h c => (h * 33 + c.toNat) % 4294967296) 5381

/-- The extension inferred from the URL's path suffix, when it has
one. -/
def extFromUrl (url : String) : Option String :=
  let seg := (splitOnChar '/' url.toList).getLastD []
  let parts := splitOnChar '.' seg
  if parts.length < 2 then none
  else
    let e := parts.getLastD []
    if e.isEmpty then none else some (String.mk e)

/-- Modelled from the spec: `getExpectedFilePath(url, name,
explicitExtension?, baseDir)` — sanitized name, an eight-hex-character
hash of the URL, and an extension taken from the explicit argument,
else the URL's path suffix, else the default audio extension. -/
def getExpectedFilePath (url name : String) (explicitExt : Option String)
    (baseDir : String) : String :=
  let ext :=
    match explicitExt with
    | some e => e
    | none =>
        match extFromUrl url with
        | some e => e
        | none => "m4a"
  baseDir ++ "/" ++ sanitizeName name ++ "_" ++ toHex8 (urlHash url) ++ "." ++ ext

/-- The on-disk cache: each path maps to the bytes stored there, if
any (an empty string is a present, zero-length file). -/
def FS : Type := String → Option String

/-- What `getOrDownloadFile` resolves with: the cache path, the bytes,
and the response content type (none on a cache hit). -/
structure FileResult where
  path : String
  buffer : String
  contentType : Option String
  deriving DecidableEq, Repr

/-- The download boundary: fetching a URL yields its body and content
type, or a transport/status failure. -/
structure DlEnv where
  fetchUrl : String → Except String (String × String)

/-- Modelled from the spec: the miss path of the cache — fetch the URL,
fail without writing on a failed fetch or an empty body, otherwise
persist the body at the resolved path and return it with its content
type.  The request count (second component) records the network call. -/
def downloadTo (env : DlEnv) (fs : FS) (url path : String) :
    FS × Nat × Except String FileResult :=
  match env.fetchUrl url with
  | Except.error e => (fs, 1, Except.error ("Download failed: " ++ e))
  | Except.ok (body, ct) =>
      if body.length = 0 then (fs, 1, Except.error "Downloaded file is empty")
      else
        (fun p => if p = path then some body else fs p, 1,
          Except.ok { path := path, buffer := body, contentType := some ct })

/-- Modelled from the spec: `getOrDownloadFile(url, baseDir, name)` —
compute the expected path; a present nonzero-length file is a cache hit
returned without a network call; a missing or zero-length file triggers
the download path. -/
def getOrDownloadFile (env : DlEnv) (fs : FS) (url baseDir name : String) :
    FS × Nat × Except String FileResult :=
  let path := getExpectedFilePath url name none baseDir
  match fs path with
  | some content =>
      if content.length > 0 then
        (fs, 0, Except.ok { path := path, buffer := content, contentType := none })
      else downloadTo env fs url path
  | none => downloadTo env fs url path

/-- The download branch of `prepareFiles` for one sample: download,
then report the path only if the file now exists with content; any
failure yields null for this sample. -/
def prepareDownload (env : DlEnv) (fs : FS) (sid url name : String) :
    FS × Nat × Option (String × String) :=
  let r := getOrDownloadFile env fs url "/tmp" name
  match r.2.2 with
  | Except.error _ => (r.1, r.2.1, none)
  | Except.ok fr =>
      match r.1 fr.path with
      | some c2 =>
          if c2.length > 0 then (r.1, r.2.1, some (sid, fr.path))
          else (r.1, r.2.1, none)
      | none => (r.1, r.2.1, none)

/-- One sample's branch of `prepareFiles`: an existing nonzero-length
file at the expected path is used as-is; an empty or missing file falls
through to the download branch. -/
def prepareSample (env : DlEnv) (fs : FS) (sid url name : String) :
    FS × Nat × Option (String × String) :=
  let expectedPath := getExpectedFilePath url name none "/tmp"
  match fs expectedPath with
  | some content =>
      if content.length > 0 then (fs, 0, some (sid, expectedPath))
      else prepareDownload env fs sid url name
  | none => prepareDownload env fs sid url name

/-- The empty cache. -/
def fs0 : FS := fun _ => none

/-- A download environment that always serves the same bytes. -/
def dlEnv0 : DlEnv := { fetchUrl := fun _ => Except.ok ("DATA", "audio/m4a") }

theorem cleanup_inv (env : Env) (s : MgrState) : inv (cleanup env s).1 := by
  simp [cleanup, inv]

theorem cleanup_fields (env : Env) (s : MgrState) :
    (cleanup env s).1.sampleId = none ∧ (cleanup env s).1.tempPath = none := by
  simp [cleanup]

theorem stopAudio_sampleId (env : Env) (s : MgrState) (h : inv s) :
    (stopAudio env s).1.sampleId = none ∧ (stopAudio env s).1.tempPath = none := by
  unfold stopAudio
  cases hs : s.sampleId with
  | none =>
      have ht : s.tempPath = none := by
        rcases h' : s.tempPath with _ | p
        · rfl
        · exfalso
          have := h.mpr (by simp [h'])
          simp [hs] at this
      simp [hs, ht]
  | some i =>
      cases env.stopBridge <;> simp [cleanup]

theorem stopAudio_inv (env : Env) (s : MgrState) (h : inv s) :
    inv (stopAudio env s).1 := by
  have := stopAudio_sampleId env s h
  simp [inv, this.1, this.2]

theorem startPhase_inv (url sid name : String) (env : Env) (s : MgrState) :
    inv (startPhase url sid name env s).1 := by
  unfold startPhase
  rcases hd : env.download url name with e | p
  · simpa [hd] using cleanup_inv env s
  · rcases hp : env.playBridge p with e | u
    · simpa [hd, hp] using
        cleanup_inv env { s with sampleId := some sid, tempPath := some p }
    · simp [hd, hp, inv]

theorem playOp_inv (url sid name : String) (env : Env) (s : MgrState) :
    inv (playOp url sid name env s).1 := by
  unfold playOp
  exact startPhase_inv url sid name env (stopAudio env s).1

theorem destroy_inv (env : Env) (s : MgrState) : inv (destroy env s).1 := by
  have := cleanup_fields env s
  simp [destroy, inv, this.1, this.2]

theorem reachable_inv (env : Env) (s : MgrState) (h : Reachable env s) : inv s := by
  induction h with
  | init => simp [initState, inv]
  | play u i n _ _ => exact playOp_inv u i n env _
  | stop _ ih => exact stopAudio_inv env _ ih
  | clean _ _ => exact cleanup_inv env _
  | dest _ _ => exact destroy_inv env _
  | sub l _ ih => simpa [subscribe, inv] using ih

theorem runQueue_length (env : Env) (s : MgrState) (ops : List Op) :
    (runQueue env s ops).2.length = ops.length := by
  induction ops generalizing s with
  | nil => rfl
  | cons op rest ih => simp [runQueue, ih]

theorem callerResult_ok (r : Option String) : callerResult r = Except.ok () := by
  cases r <;> rfl

theorem stopAudio_post_sampleId (env : Env) (s : MgrState) :
    (stopAudio env s).1.sampleId = none := by
  unfold stopAudio
  cases hs : s.sampleId with
  | none => simpa using hs
  | some i => cases env.stopBridge <;> simp [cleanup]

theorem stopAudio_idle (env : Env) (s : MgrState) (h : s.sampleId = none) :
    stopAudio env s = (s, []) := by
  simp [stopAudio, h]

/-- C1 counterexample: the claim says each play or stop request is
appended to the single FIFO queue, but a stop request contributes
nothing to the queue (`stopAudio` never calls `enqueuePlayback`),
whereas a play request contributes its operation. -/
theorem c1_stop_not_enqueued_cex :
    requestQueueOps Request.stop = [] ∧
      requestQueueOps (Request.play "u" "A" "n") ≠ [] := by
  exact ⟨rfl, by simp [requestQueueOps]⟩

/-- C1 (amended): play requests are appended to a single FIFO queue and
processed one at a time, so for play(A) then play(B) issued without
awaiting, B runs against the state A left behind: the combined trace is
A's full trace, then the stop sequence performed at the head of B's
operation, then B's start phase; both operations run (and the queue
processes every queued operation even when one fails). -/
theorem c1_play_queue_fifo (env : Env) (s : MgrState) (uA a nA uB b nB : String) :
    (runQueue env s [playOp uA a nA, playOp uB b nB]).2 =
      [((playOp uA a nA env s).2.1, (playOp uA a nA env s).2.2),
       ((stopAudio env (playOp uA a nA env s).1).2 ++
          (startPhase uB b nB env (stopAudio env (playOp uA a nA env s).1).1).2.1,
        (startPhase uB b nB env (stopAudio env (playOp uA a nA env s).1).1).2.2)] ∧
    queueTrace (runQueue env s [playOp uA a nA, playOp uB b nB]).2 =
      (playOp uA a nA env s).2.1 ++
        ((stopAudio env (playOp uA a nA env s).1).2 ++
          (startPhase uB b nB env (stopAudio env (playOp uA a nA env s).1).1).2.1) ∧
    (∀ ops : List Op, (runQueue env s ops).2.length = ops.length) ∧
    requestQueueOps (Request.play uA a nA) = [playOp uA a nA] := by
  refine ⟨?_, ?_, runQueue_length env s, rfl⟩
  · simp [runQueue, playOp]
  · simp [runQueue, queueTrace, playOp]

/-- C2: every state reachable through the playback operations satisfies
the session invariant: the sample id is set exactly when the temp-file
path is set (the single process-wide session is the one slot of the
manager state). -/
theorem c2_playback_session_invariant (env : Env) (s : MgrState)
    (h : Reachable env s) : s.sampleId.isSome ↔ s.tempPath.isSome :=
  reachable_inv env s h

/-- C2 witness: the invariant evaluated at the state after a successful
play from the initial state. -/
theorem c2_playback_session_invariant_witness :
    ((playOp "u" "A" "n" env0 initState).1.sampleId.isSome ↔
      (playOp "u" "A" "n" env0 initState).1.tempPath.isSome) :=
  c2_playback_session_invariant env0 _ (Reachable.play "u" "A" "n" Reachable.init)

/-- C3 counterexample: when the download fails, the queued operation
raises the original error internally, yet the caller of `playAudio`
observes normal resolution — `enqueuePlayback` attaches its catch
handler to the very promise it returns, so the error never propagates
to the caller. -/
theorem c3_error_swallowed_cex :
    (playOp "u" "A" "n" envFail initState).2.2 = some "boom" ∧
      (playAudio "u" "A" "n" envFail initState).2.2 = Except.ok () :=
  ⟨rfl, rfl⟩

/-- C3 (amended): whenever a queued play operation fails (download or
player invocation), the state resets to idle with the temp-file
reference cleared and the original error is the one raised inside the
operation; the queue wrapper catches it, so the caller of `playAudio`
observes successful resolution rather than the error. -/
theorem c3_failure_resets_state (env : Env) (s : MgrState) (u i n e : String)
    (h : (playOp u i n env s).2.2 = some e) :
    (playOp u i n env s).1.sampleId = none ∧
      (playOp u i n env s).1.tempPath = none ∧
      (playAudio u i n env s).2.2 = Except.ok () := by
  refine ⟨?_, ?_, by simp [playAudio, callerResult_ok]⟩ <;>
  · unfold playOp startPhase at h ⊢
    rcases hd : env.download u n with er | p
    · simp [hd, cleanup]
    · rcases hp : env.playBridge p with er | uu
      · simp [hd, hp, cleanup]
      · simp [hd, hp] at h

/-- C3 amended witness: the failing download environment instantiates
the theorem. -/
theorem c3_failure_resets_state_witness :
    (playOp "u" "A" "n" envFail initState).1.sampleId = none ∧
      (playOp "u" "A" "n" envFail initState).1.tempPath = none ∧
      (playAudio "u" "A" "n" envFail initState).2.2 = Except.ok () :=
  c3_failure_resets_state envFail initState "u" "A" "n" "boom" rfl

/-- C4 counterexample: with sample A actively playing, the teardown
operation `destroy` never sends a stop command to the external player
(no bridge-stop event in its trace), although an explicit `stopAudio`
from the same state does. -/
theorem c4_destroy_no_player_stop_cex :
    playingState.sampleId = some "A" ∧
      Ev.bridgeStop ∉ (destroy env0 playingState).2 ∧
      Ev.bridgeStop ∈ (stopAudio env0 playingState).2 := by
  refine ⟨rfl, ?_, ?_⟩ <;> decide

/-- C4 (amended): teardown (`destroy`, the body of `cleanupPlayback`)
deletes any residual temp file, clears the sample id and temp path, and
releases all subscribers, leaving an idle state with an empty listener
set; it does not send a stop command to the external player. -/
theorem c4_destroy_clears_state (env : Env) (s : MgrState) :
    (destroy env s).1.sampleId = none ∧
      (destroy env s).1.tempPath = none ∧
      (destroy env s).1.listeners = [] ∧
      (∀ p, s.tempPath = some p → env.fsHas p = true →
        Ev.unlinkTemp p ∈ (destroy env s).2) ∧
      Ev.bridgeStop ∉ (destroy env s).2 := by
  refine ⟨by simp [destroy, cleanup], by simp [destroy, cleanup],
    by simp [destroy, cleanup], ?_, ?_⟩
  · intro p hp hfs
    simp [destroy, cleanup, hp, hfs]
  · unfold destroy cleanup
    rcases s.tempPath with _ | p
    · simp
    · by_cases hf : env.fsHas p <;> simp [hf]

/-- C4 amended witness: teardown of the playing state deletes the temp
file and empties the listener set. -/
theorem c4_destroy_clears_state_witness :
    (destroy env0 playingState).1.listeners = [] ∧
      Ev.unlinkTemp "/tmp/a" ∈ (destroy env0 playingState).2 :=
  ⟨(c4_destroy_clears_state env0 playingState).2.2.1,
    (c4_destroy_clears_state env0 playingState).2.2.2.1 "/tmp/a" rfl rfl⟩

/-- C5: a stop request with nothing playing returns immediately with an
unchanged state and an empty trace (so the automation bridge is never
invoked); after any stop the sample id is clear, so a second stop in a
row never invokes the bridge; and a failing stop script changes the
resulting state no differently from a succeeding one (the failure is
swallowed and cleanup still runs, so stop never throws). -/
theorem c5_stop_idempotent (env : Env) (s : MgrState) :
    (s.sampleId = none → stopAudio env s = (s, [])) ∧
      Ev.bridgeStop ∉ (stopAudio env (stopAudio env s).1).2 ∧
      (∀ e : String,
        (stopAudio { env with stopBridge := Except.error e } s).1 =
          (stopAudio { env with stopBridge := Except.ok () } s).1) := by
  refine ⟨?_, ?_, ?_⟩
  · intro h
    simp [stopAudio, h]
  · rw [stopAudio_idle env _ (stopAudio_post_sampleId env s)]
    simp
  · intro e
    unfold stopAudio
    rcases s.sampleId with _ | i <;> simp [cleanup]

/-- C5 witness: a double stop from the playing state and a stop from
the initial (idle) state. -/
theorem c5_stop_idempotent_witness :
    stopAudio env0 initState = (initState, []) ∧
      Ev.bridgeStop ∉ (stopAudio env0 (stopAudio env0 playingState).1).2 :=
  ⟨(c5_stop_idempotent env0 initState).1 rfl,
    (c5_stop_idempotent env0 playingState).2.1⟩

theorem makeRequest_config_error (token apiBaseUrl : Option String)
    (env : ApiEnv) (endpoint : String)
    (h : jsFalsy token = true ∨ jsFalsy apiBaseUrl = true) :
    (makeRequest token apiBaseUrl env endpoint).2 = 0 ∧
      isConfigFailure (makeRequest token apiBaseUrl env endpoint).1 = true := by
  rcases h with h | h
  · simp [makeRequest, h, isConfigFailure]
  · by_cases ht : jsFalsy token = true
    · simp [makeRequest, ht, isConfigFailure]
    · simp [makeRequest, ht, h, isConfigFailure]

/-- C6: when the stored configuration yields no token or no API base
URL (absent or empty), both `searchSamples` and `getAvailableGenres`
fail with the pre-fetch configuration error and make zero network
requests. -/
theorem c6_missing_config_no_fetch (parseJson : String → Option StoredState)
    (raw : Option String) (env : ApiEnv) (genres : List String)
    (page limit : Option Nat)
    (h : jsFalsy (getSoundrawToken parseJson raw) = true ∨
      jsFalsy (getSoundrawApiBaseUrl parseJson raw) = true) :
    (searchSamples (getSoundrawToken parseJson raw)
        (getSoundrawApiBaseUrl parseJson raw) env genres page limit).2 = 0 ∧
      isConfigFailure (searchSamples (getSoundrawToken parseJson raw)
        (getSoundrawApiBaseUrl parseJson raw) env genres page limit).1 = true ∧
      (getAvailableGenres (getSoundrawToken parseJson raw)
        (getSoundrawApiBaseUrl parseJson raw) env).2 = 0 ∧
      isConfigFailure (getAvailableGenres (getSoundrawToken parseJson raw)
        (getSoundrawApiBaseUrl parseJson raw) env).1 = true := by
  have hs := makeRequest_config_error (getSoundrawToken parseJson raw)
    (getSoundrawApiBaseUrl parseJson raw) env (searchEndpoint genres page limit) h
  have hg := makeRequest_config_error (getSoundrawToken parseJson raw)
    (getSoundrawApiBaseUrl parseJson raw) env "/tags" h
  exact ⟨hs.1, hs.2, hg.1, hg.2⟩

/-- C6 witness: empty storage has no token, so a search for rock makes
zero requests and reports the configuration failure. -/
theorem c6_missing_config_no_fetch_witness :
    (searchSamples (getSoundrawToken (fun _ => none) none)
        (getSoundrawApiBaseUrl (fun _ => none) none) apiEnv0 ["rock"] none none).2 = 0 ∧
      isConfigFailure (searchSamples (getSoundrawToken (fun _ => none) none)
        (getSoundrawApiBaseUrl (fun _ => none) none) apiEnv0 ["rock"] none none).1 = true ∧
      (getAvailableGenres (getSoundrawToken (fun _ => none) none)
        (getSoundrawApiBaseUrl (fun _ => none) none) apiEnv0).2 = 0 ∧
      isConfigFailure (getAvailableGenres (getSoundrawToken (fun _ => none) none)
        (getSoundrawApiBaseUrl (fun _ => none) none) apiEnv0).1 = true :=
  c6_missing_config_no_fetch (fun _ => none) none apiEnv0 ["rock"] none none
    (Or.inl rfl)

/-- C10: reading the persisted configuration is total by construction,
and on missing, empty or unparsable storage `readState` returns the
empty state, so `getSoundrawConfig`, `getSoundrawToken` and
`getSoundrawApiBaseUrl` all return `undefined` rather than failing. -/
theorem c10_read_state_total (parseJson : String → Option StoredState)
    (raw : Option String)
    (h : raw = none ∨ raw = some "" ∨ ∃ s, raw = some s ∧ parseJson s = none) :
    readState parseJson raw = {} ∧
      getSoundrawConfig parseJson raw = none ∧
      getSoundrawToken parseJson raw = none ∧
      getSoundrawApiBaseUrl parseJson raw = none := by
  rcases h with h | h | ⟨s, hs, hp⟩
  · subst h
    exact ⟨rfl, rfl, rfl, rfl⟩
  · subst h
    have he : ("" : String).isEmpty = true := rfl
    simp [readState, getSoundrawConfig, getSoundrawToken, getSoundrawApiBaseUrl, he]
  · subst hs
    by_cases he : s.isEmpty <;>
      simp [readState, getSoundrawConfig, getSoundrawToken, getSoundrawApiBaseUrl,
        he, hp]

/-- C10 witness: storage holding a string the parser rejects reads as
the empty state with every getter undefined. -/
theorem c10_read_state_total_witness :
    readState (fun _ => none) (some "notjson") = {} ∧
      getSoundrawConfig (fun _ => none) (some "notjson") = none ∧
      getSoundrawToken (fun _ => none) (some "notjson") = none ∧
      getSoundrawApiBaseUrl (fun _ => none) (some "notjson") = none :=
  c10_read_state_total (fun _ => none) (some "notjson")
    (Or.inr (Or.inr ⟨"notjson", rfl, rfl⟩))

theorem toHexAux_length (k n : Nat) : (toHexAux k n).length = k := by
  induction k generalizing n with
  | zero => rfl
  | succ k ih => simp [toHexAux, ih]

theorem hexDigitChar_toNat (n : Nat) (h : n < 16) :
    (hexDigitChar n).toNat = if n < 10 then 48 + n else 87 + n := by
  interval_cases n <;> rfl

theorem hexDigitChar_inj (n m : Nat) (hn : n < 16) (hm : m < 16)
    (h : hexDigitChar n = hexDigitChar m) : n = m := by
  have h2 := congrArg Char.toNat h
  rw [hexDigitChar_toNat n hn, hexDigitChar_toNat m hm] at h2
  split_ifs at h2 <;> omega

theorem toHexAux_inj (k : Nat) : ∀ n m : Nat, n < 16 ^ k → m < 16 ^ k →
    toHexAux k n = toHexAux k m → n = m := by
  induction k with
  | zero =>
      intro n m hn hm _
      simp at hn hm
      omega
  | succ k ih =>
      intro n m hn hm h
      simp only [toHexAux] at h
      have hlen : (toHexAux k (n / 16)).length = (toHexAux k (m / 16)).length := by
        simp [toHexAux_length]
      obtain ⟨h1, h2⟩ := List.append_inj h hlen
      have hd : n % 16 = m % 16 := by
        have := List.head_eq_of_cons_eq h2
        exact hexDigitChar_inj _ _ (Nat.mod_lt _ (by norm_num))
          (Nat.mod_lt _ (by norm_num)) this
      have hq : n / 16 = m / 16 := by
        refine ih (n / 16) (m / 16) ?_ ?_ h1
        · have : n < 16 ^ k * 16 := by
            rw [← pow_succ]
            exact hn
          omega
        · have : m < 16 ^ k * 16 := by
            rw [← pow_succ]
            exact hm
          omega
      omega

theorem urlHash_lt (url : String) : urlHash url < 4294967296 := by
  unfold urlHash
  generalize url.toList = l
  have : ∀ (l : List Char) (h : Nat), h < 4294967296 →
      l.foldl (fun a c => (a * 33 + c.toNat) % 4294967296) h < 4294967296 := by
    intro l
    induction l with
    | nil => intro h hh; simpa using hh
    | cons c cs ih =>
        intro h _
        exact ih _ (Nat.mod_lt _ (by norm_num))
  exact this l 5381 (by norm_num)

theorem toHex8_inj (n m : Nat) (hn : n < 4294967296) (hm : m < 4294967296)
    (h : toHex8 n = toHex8 m) : n = m := by
  have hdata : toHexAux 8 n = toHexAux 8 m := congrArg String.data h
  exact toHexAux_inj 8 n m (by norm_num at hn ⊢; omega) (by norm_num at hm ⊢; omega) hdata

theorem getExpectedFilePath_hash_ne (u1 u2 nm : String) (e : Option String)
    (b : String) (h : urlHash u1 ≠ urlHash u2) :
    getExpectedFilePath u1 nm e b ≠ getExpectedFilePath u2 nm e b := by
  intro heq
  apply h
  have hd := congrArg String.data heq
  simp only [getExpectedFilePath, String.data_append, List.append_assoc] at hd
  have h1 := List.append_cancel_left hd
  have h2 := List.append_cancel_left h1
  have h3 := List.append_cancel_left h2
  have h4 := List.append_cancel_left h3
  have hlen : (toHex8 (urlHash u1)).data.length = (toHex8 (urlHash u2)).data.length := by
    simp [toHex8, toHexAux_length]
  obtain ⟨h5, _⟩ := List.append_inj h4 hlen
  exact toHex8_inj _ _ (urlHash_lt u1) (urlHash_lt u2) (String.ext h5)

/-- C7 counterexample: the URLs "aT" and "b3" differ yet hash to the
same 32-bit value, so the resolver maps them, with an identical name,
to the identical path — a fixed-width hash cannot make distinct URLs
yield distinct paths unconditionally. -/
theorem c7_hash_collision_cex :
    getExpectedFilePath "aT" "x" none "/tmp" =
        getExpectedFilePath "b3" "x" none "/tmp" ∧
      ("aT" : String) ≠ "b3" := by
  refine ⟨by decide, by decide⟩

/-- C7 (amended): the resolver is a pure function of its arguments —
identical inputs yield the identical path — and two urls with identical
names yield differing path strings whenever their URL hashes differ
(the eight-hex-character hash admits collisions, so distinctness is
only hash-conditional). -/
theorem c7_resolve_path_pure (u1 u2 nm : String) (e : Option String) (b : String)
    (h : urlHash u1 ≠ urlHash u2) :
    getExpectedFilePath u1 nm e b = getExpectedFilePath u1 nm e b ∧
      getExpectedFilePath u1 nm e b ≠ getExpectedFilePath u2 nm e b :=
  ⟨rfl, getExpectedFilePath_hash_ne u1 u2 nm e b h⟩

/-- C7 amended witness: two concrete urls with differing hashes resolve
to differing paths. -/
theorem c7_resolve_path_pure_witness :
    getExpectedFilePath "a" "x" none "/tmp" =
        getExpectedFilePath "a" "x" none "/tmp" ∧
      getExpectedFilePath "a" "x" none "/tmp" ≠
        getExpectedFilePath "b" "x" none "/tmp" :=
  c7_resolve_path_pure "a" "b" "x" none "/tmp" (by decide)

theorem getOrDownloadFile_hit (env : DlEnv) (fs : FS)
    (url baseDir name content : String)
    (hc : fs (getExpectedFilePath url name none baseDir) = some content)
    (hl : content.length > 0) :
    getOrDownloadFile env fs url baseDir name =
      (fs, 0,
        Except.ok
          { path := getExpectedFilePath url name none baseDir
            buffer := content
            contentType := none }) := by
  simp [getOrDownloadFile, hc, hl]

theorem getOrDownloadFile_miss (env : DlEnv) (fs : FS) (url baseDir name : String)
    (hm : ∀ c, fs (getExpectedFilePath url name none baseDir) = some c →
      c.length = 0) :
    getOrDownloadFile env fs url baseDir name =
      downloadTo env fs url (getExpectedFilePath url name none baseDir) := by
  rcases hc : fs (getExpectedFilePath url name none baseDir) with _ | c
  · simp [getOrDownloadFile, hc]
  · have := hm c hc
    simp [getOrDownloadFile, hc, this]

theorem downloadTo_count (env : DlEnv) (fs : FS) (url p : String) :
    (downloadTo env fs url p).2.1 = 1 := by
  rcases hf : env.fetchUrl url with er | ⟨body, ct⟩
  · simp [downloadTo, hf]
  · by_cases hb : body.length = 0 <;> simp [downloadTo, hf, hb]

theorem downloadTo_ok_post (env : DlEnv) (fs : FS) (url p : String)
    (fr : FileResult) (h : (downloadTo env fs url p).2.2 = Except.ok fr) :
    fr.path = p ∧ (downloadTo env fs url p).1 fr.path = some fr.buffer ∧
      fr.buffer.length > 0 := by
  rcases hf : env.fetchUrl url with er | ⟨body, ct⟩
  · simp [downloadTo, hf] at h
  · by_cases hb : body.length = 0
    · simp [downloadTo, hf, hb] at h
    · have hshape : downloadTo env fs url p =
          ((fun q => if q = p then some body else fs q), 1,
            Except.ok { path := p, buffer := body, contentType := some ct }) := by
        simp [downloadTo, hf, hb]
      rw [hshape] at h ⊢
      injection h with h2
      subst h2
      exact ⟨rfl, by simp, Nat.pos_of_ne_zero hb⟩

theorem getOrDownloadFile_ok_post (env : DlEnv) (fs : FS)
    (url baseDir name : String) (fr : FileResult)
    (h : (getOrDownloadFile env fs url baseDir name).2.2 = Except.ok fr) :
    fr.path = getExpectedFilePath url name none baseDir ∧
      (getOrDownloadFile env fs url baseDir name).1 fr.path = some fr.buffer ∧
      fr.buffer.length > 0 := by
  rcases hc : fs (getExpectedFilePath url name none baseDir) with _ | content
  · have hm : ∀ c, fs (getExpectedFilePath url name none baseDir) = some c →
        c.length = 0 := by
      intro c hcc
      rw [hc] at hcc
      cases hcc
    rw [getOrDownloadFile_miss env fs url baseDir name hm] at h ⊢
    exact downloadTo_ok_post env fs url _ fr h
  · by_cases hl : content.length > 0
    · rw [getOrDownloadFile_hit env fs url baseDir name content hc hl] at h ⊢
      injection h with h2
      subst h2
      exact ⟨rfl, hc, hl⟩
    · have hm : ∀ c, fs (getExpectedFilePath url name none baseDir) = some c →
          c.length = 0 := by
        intro c hcc
        rw [hc] at hcc
        injection hcc with e
        subst e
        omega
      rw [getOrDownloadFile_miss env fs url baseDir name hm] at h ⊢
      exact downloadTo_ok_post env fs url _ fr h

/-- C8: after a successful `getOrDownloadFile`, the same (url, name)
request against the resulting cache makes zero network calls, returns
byte-identical content at the same path (served as a cache hit, hence
no content type), and leaves the cache unchanged. -/
theorem c8_cache_round_trip (env : DlEnv) (fs : FS) (url baseDir name : String)
    (fr : FileResult)
    (h : (getOrDownloadFile env fs url baseDir name).2.2 = Except.ok fr) :
    (getOrDownloadFile env (getOrDownloadFile env fs url baseDir name).1
        url baseDir name).2.1 = 0 ∧
      (getOrDownloadFile env (getOrDownloadFile env fs url baseDir name).1
        url baseDir name).2.2 =
        Except.ok { path := fr.path, buffer := fr.buffer, contentType := none } ∧
      (getOrDownloadFile env (getOrDownloadFile env fs url baseDir name).1
        url baseDir name).1 = (getOrDownloadFile env fs url baseDir name).1 := by
  obtain ⟨hp, hs, hl⟩ := getOrDownloadFile_ok_post env fs url baseDir name fr h
  have hhit := getOrDownloadFile_hit env
    (getOrDownloadFile env fs url baseDir name).1 url baseDir name fr.buffer
    (hp ▸ hs) hl
  refine ⟨by rw [hhit], ?_, by rw [hhit]⟩
  rw [hhit, hp]

/-- C8 witness: downloading through the empty cache and requesting the
same (url, name) again. -/
theorem c8_cache_round_trip_witness :
    (getOrDownloadFile dlEnv0 (getOrDownloadFile dlEnv0 fs0 "u" "/tmp" "n").1
        "u" "/tmp" "n").2.1 = 0 ∧
      (getOrDownloadFile dlEnv0 (getOrDownloadFile dlEnv0 fs0 "u" "/tmp" "n").1
        "u" "/tmp" "n").2.2 =
        Except.ok
          { path := getExpectedFilePath "u" "n" none "/tmp"
            buffer := "DATA"
            contentType := none } ∧
      (getOrDownloadFile dlEnv0 (getOrDownloadFile dlEnv0 fs0 "u" "/tmp" "n").1
        "u" "/tmp" "n").1 = (getOrDownloadFile dlEnv0 fs0 "u" "/tmp" "n").1 :=
  c8_cache_round_trip dlEnv0 fs0 "u" "/tmp" "n"
    { path := getExpectedFilePath "u" "n" none "/tmp"
      buffer := "DATA"
      contentType := some "audio/m4a" } rfl

theorem getOrDownloadFile_count_of_empty (env : DlEnv) (fs : FS)
    (url baseDir name : String)
    (h : fs (getExpectedFilePath url name none baseDir) = some "") :
    (getOrDownloadFile env fs url baseDir name).2.1 = 1 := by
  have hm : ∀ c, fs (getExpectedFilePath url name none baseDir) = some c →
      c.length = 0 := by
    intro c hcc
    rw [h] at hcc
    injection hcc with e
    subst e
    rfl
  rw [getOrDownloadFile_miss env fs url baseDir name hm]
  exact downloadTo_count env fs url _

/-- C9: a zero-length file at the expected cache path is treated as
absent — the request makes a network call (both through
`getOrDownloadFile` and through the `prepareFiles` branch of the search
view), and a successful fetch of a nonempty body overwrites the empty
file at that path. -/
theorem c9_zero_length_refetch (env : DlEnv) (fs : FS)
    (url baseDir name sid : String)
    (h : fs (getExpectedFilePath url name none baseDir) = some "") :
    (getOrDownloadFile env fs url baseDir name).2.1 = 1 ∧
      (∀ body ct, env.fetchUrl url = Except.ok (body, ct) → body ≠ "" →
        (getOrDownloadFile env fs url baseDir name).1
          (getExpectedFilePath url name none baseDir) = some body) ∧
      (fs (getExpectedFilePath url name none "/tmp") = some "" →
        (prepareSample env fs sid url name).2.1 = 1) := by
  refine ⟨getOrDownloadFile_count_of_empty env fs url baseDir name h, ?_, ?_⟩
  · intro body ct hf hb
    have hlen : ¬ body.length = 0 := by
      intro h0
      apply hb
      have hdata : body.data = [] := List.length_eq_zero.mp h0
      cases body
      simp_all
    have hm : ∀ c, fs (getExpectedFilePath url name none baseDir) = some c →
        c.length = 0 := by
      intro c hcc
      rw [h] at hcc
      injection hcc with e
      subst e
      rfl
    rw [getOrDownloadFile_miss env fs url baseDir name hm]
    simp [downloadTo, hf, hlen]
  · intro h2
    have hm2 : ∀ c, fs (getExpectedFilePath url name none "/tmp") = some c →
        c.length = 0 := by
      intro c hcc
      rw [h2] at hcc
      injection hcc with e
      subst e
      rfl
    have hcount : (getOrDownloadFile env fs url "/tmp" name).2.1 = 1 := by
      rw [getOrDownloadFile_miss env fs url "/tmp" name hm2]
      exact downloadTo_count env fs url _
    have hz : ¬ (("" : String).length > 0) := by decide
    simp only [prepareSample, h2]
    rw [if_neg hz]
    simp only [prepareDownload]
    rcases hr : (getOrDownloadFile env fs url "/tmp" name).2.2 with er | fr <;>
      simp only [hr]
    · exact hcount
    · rcases hpp : (getOrDownloadFile env fs url "/tmp" name).1 fr.path with _ | c2 <;>
        simp only [hpp]
      · exact hcount
      · split <;> exact hcount

/-- C9 witness: a cache where every path holds a zero-length file
re-fetches and overwrites. -/
theorem c9_zero_length_refetch_witness :
    (getOrDownloadFile dlEnv0 (fun _ => some "") "u" "/tmp" "n").2.1 = 1 ∧
      (getOrDownloadFile dlEnv0 (fun _ => some "") "u" "/tmp" "n").1
        (getExpectedFilePath "u" "n" none "/tmp") = some "DATA" ∧
      (prepareSample dlEnv0 (fun _ => some "") "s" "u" "n").2.1 = 1 :=
  ⟨(c9_zero_length_refetch dlEnv0 (fun _ => some "") "u" "/tmp" "n" "s" rfl).1,
    (c9_zero_length_refetch dlEnv0 (fun _ => some "") "u" "/tmp" "n" "s" rfl).2.1
      "DATA" "audio/m4a" rfl (by decide),
    (c9_zero_length_refetch dlEnv0 (fun _ => some "") "u" "/tmp" "n" "s" rfl).2.2 rfl⟩

end Soundraw
